import Mathlib

/-!
Verification of the inline-preview core of the obsidian-github-copilot-integration
plugin: the `SpinnerPlugin` overlay engine and `ContentWidget` incremental renderer
(src/spinnerPlugin.ts, appearing in `src/src/inlineDiffView.ts`), the
`showInlineDiff` diff-review controller (`src/src/inlineDiffView.ts`), the
`executeAction` completion logic (`src/unnamed/part_002`), and the
`requestPositionTracker` range registry (imported by the plugin but absent from
the sources; modelled from the specification).

Texts are embedded as lists of characters (`JSStr`); JavaScript `Map` objects
are embedded as insertion-ordered association lists with `mget`/`mset`/`mdel`
mirroring `Map.get`/`Map.set`/`Map.delete`.
-/

/-- A JavaScript string, embedded as its list of characters. -/
abbrev JSStr : Type := List Char

/-- Character-list form of a Lean string literal. -/
def str (s : String) : JSStr := s.data

/-- JavaScript `String.prototype.trim`: strip whitespace from both ends. -/
def jsTrim (s : JSStr) : JSStr :=
  ((s.dropWhile Char.isWhitespace).reverse.dropWhile Char.isWhitespace).reverse

-- ── Insertion-ordered maps (JavaScript `Map` semantics) ──

/-- JavaScript `Map.get`: first binding of the key, if any. -/
def mget {ν : Type} (m : List (Nat × ν)) (k : Nat) : Option ν :=
  match m with
  | [] => none
  | (k0, v0) :: rest => if k0 = k then some v0 else mget rest k

/-- JavaScript `Map.set`: update the existing binding in place (keeping its position in
iteration order) or append a fresh binding at the end. -/
def mset {ν : Type} (m : List (Nat × ν)) (k : Nat) (v : ν) : List (Nat × ν) :=
  match m with
  | [] => [(k, v)]
  | (k0, v0) :: rest => if k0 = k then (k, v) :: rest else (k0, v0) :: mset rest k v

/-- JavaScript `Map.delete`: remove every binding of the key. -/
def mdel {ν : Type} (m : List (Nat × ν)) (k : Nat) : List (Nat × ν) :=
  match m with
  | [] => []
  | (k0, v0) :: rest => if k0 = k then mdel rest k else (k0, v0) :: mdel rest k

theorem mget_mset_self {ν : Type} (m : List (Nat × ν)) (k : Nat) (v : ν) :
    mget (mset m k v) k = some v := by
  induction m with
  | nil => simp [mget, mset]
  | cons kv rest ih =>
    obtain ⟨k0, v0⟩ := kv
    by_cases h : k0 = k
    · simp [mget, mset, h]
    · simp [mget, mset, h, ih]

theorem mget_mset_ne {ν : Type} (m : List (Nat × ν)) (k j : Nat) (v : ν)
    (h : j ≠ k) : mget (mset m k v) j = mget m j := by
  induction m with
  | nil => simp [mget, mset, Ne.symm h]
  | cons kv rest ih =>
    obtain ⟨k0, v0⟩ := kv
    by_cases hk : k0 = k
    · simp [mget, mset, hk, Ne.symm h]
    · simp [mget, mset, hk, ih]

theorem mget_mdel_self {ν : Type} (m : List (Nat × ν)) (k : Nat) :
    mget (mdel m k) k = none := by
  induction m with
  | nil => simp [mget, mdel]
  | cons kv rest ih =>
    obtain ⟨k0, v0⟩ := kv
    by_cases h : k0 = k
    · simp [mdel, h, ih]
    · simp [mget, mdel, h, ih]

theorem mget_mdel_ne {ν : Type} (m : List (Nat × ν)) (k j : Nat)
    (h : j ≠ k) : mget (mdel m k) j = mget m j := by
  induction m with
  | nil => simp [mdel]
  | cons kv rest ih =>
    obtain ⟨k0, v0⟩ := kv
    by_cases hk : k0 = k
    · subst hk
      simp [mget, mdel, Ne.symm h, ih]
    · simp [mget, mdel, hk, ih]

theorem keys_mset_of_mem {ν : Type} (m : List (Nat × ν)) (k : Nat) (v : ν)
    (h : mget m k ≠ none) : (mset m k v).map Prod.fst = m.map Prod.fst := by
  induction m with
  | nil => simp [mget] at h
  | cons kv rest ih =>
    obtain ⟨k0, v0⟩ := kv
    by_cases hk : k0 = k
    · simp [mset, hk]
    · simp [mget, hk] at h
      simp [mset, hk, ih h]

-- ── Document edits and the position-mapping primitive ──

/-- A single document change: at `pos`, `deleted` characters are removed and
`inserted` is put in their place. -/
structure EditOp where
  pos : Nat
  deleted : Nat
  inserted : JSStr
deriving DecidableEq

/-- Mapping bias for offsets that sit exactly on the change. -/
inductive Bias where
  | stickyLeft
  | stickyRight
deriving DecidableEq

/-- Modelled from the spec: the document model's position-mapping primitive
(CodeMirror `ChangeDesc.mapPos` with `assoc`; the document model is an external
collaborator, §6). Offsets before the change keep their value; offsets after it
shift by the length delta; an offset on the change maps to its start under
`StickyLeft` and to the end of the inserted text under `StickyRight`. -/
def mapOffset (e : EditOp) (b : Bias) (o : Nat) : Nat :=
  if o < e.pos then o
  else if e.pos + e.deleted < o then o - e.deleted + e.inserted.length
  else
    match b with
    | Bias.stickyLeft => e.pos
    | Bias.stickyRight => e.pos + e.inserted.length

/-- Apply an edit to the document text. -/
def applyEdit (doc : JSStr) (e : EditOp) : JSStr :=
  doc.take e.pos ++ e.inserted ++ doc.drop (e.pos + e.deleted)

/-- Offset of the end of the line containing `pos` (the next newline at or
after `pos`, or the end of the document): CodeMirror `doc.lineAt(pos).to`. -/
def lineEndAt (doc : JSStr) (pos : Nat) : Nat :=
  pos + ((doc.drop pos).takeWhile (fun c => c ≠ '\n')).length

/-- Source `SpinnerPlugin.isPositionAtEndOfLine`:
`position === this.editorView.state.doc.lineAt(position).to`. -/
def isPositionAtEndOfLine (doc : JSStr) (position : Nat) : Bool :=
  position = lineEndAt doc position

-- ── ContentWidget (streaming text preview) ──

/-- One segment of the widget's rendered DOM: its text and whether it sits in a
`copilot-stream-chunk` span (the enter-animation marker for new content). -/
structure RenderSeg where
  text : JSStr
  isNewChunk : Bool
deriving DecidableEq

/-- The `ContentWidget` streamed-text widget. `dom` is `null` until the editor
view materializes the widget by calling `toDOM`. -/
structure ContentWidget where
  text : JSStr
  dom : Option (List RenderSeg)
deriving DecidableEq

/-- Source `ContentWidget.updateText`: if the widget has a DOM and the text changed,
either append only the added suffix as an animated chunk (when the new text
extends the previous text) or replace the displayed content wholesale. -/
def ContentWidget.updateText (w : ContentWidget) (newText : JSStr) : ContentWidget :=
  match w.dom with
  | none => w
  | some _ =>
    if w.text = newText then w
    else
      let previousText := w.text
      if previousText.isPrefixOf newText then
        let addedText := newText.drop previousText.length
        if addedText = [] then { w with text := newText }
        else
          { text := newText,
            dom := some [RenderSeg.mk (newText.take (newText.length - addedText.length)) false,
                         RenderSeg.mk addedText true] }
      else { text := newText, dom := some [RenderSeg.mk newText false] }

/-- Source `ContentWidget.toDOM`: create the DOM (a single plain text node holding
`text`) on first call; later calls return the existing DOM. -/
def ContentWidget.toDOM (w : ContentWidget) : ContentWidget :=
  match w.dom with
  | none => { w with dom := some [RenderSeg.mk w.text false] }
  | some _ => w

-- ── SpinnerPlugin (overlay engine) ──

/-- An overlay entry's widget: the animated `LoaderWidget` spinner or a
`ContentWidget` holding streamed text. -/
inductive Widget where
  | loader
  | content (w : ContentWidget)
deriving DecidableEq

/-- One overlay entry of `SpinnerPlugin.entries`. -/
structure Entry where
  position : Nat
  isEndOfLine : Bool
  widget : Widget
deriving DecidableEq

/-- One widget decoration produced by `updateDecorations`
(`side` is `1` for end-of-line anchors, `-1` otherwise). -/
structure DecoEntry where
  position : Nat
  side : Int
  widget : Widget
deriving DecidableEq

/-- Stable insertion step of the decoration rebuild's
`sort((a, b) => a.position - b.position)`. -/
def insertEntryByPos (a : Entry) : List Entry → List Entry
  | [] => [a]
  | x :: xs => if x.position < a.position then x :: insertEntryByPos a xs else a :: x :: xs

/-- The decoration rebuild's stable ascending sort by current position
(JavaScript `Array.prototype.sort` is stable). -/
def sortEntriesByPos (l : List Entry) : List Entry :=
  l.foldr insertEntryByPos []

/-- Decoration produced for one entry. -/
def decoOf (d : Entry) : DecoEntry :=
  DecoEntry.mk d.position (if d.isEndOfLine then 1 else -1) d.widget

/-- The decoration rebuild of `SpinnerPlugin.updateDecorations` as a pure function of the live entries:
rebuild the decoration set from the entries sorted by position ascending. -/
def buildDecorations (entries : List (Nat × Entry)) : List DecoEntry :=
  (sortEntriesByPos (entries.map Prod.snd)).map decoOf

/-- The `SpinnerPlugin` state: the host document text, the `entries` map (id to
entry, insertion-ordered), the `positionToId` routing map keyed by the offset
passed to `show`, the id counter, and the current decoration set. -/
structure SpinnerPlugin where
  doc : JSStr
  entries : List (Nat × Entry)
  positionToId : List (Nat × Nat)
  idCounter : Nat
  decorations : List DecoEntry
deriving DecidableEq

/-- A fresh plugin over the given document (constructor: empty maps, no
decorations). -/
def SpinnerPlugin.init (doc : JSStr) : SpinnerPlugin :=
  SpinnerPlugin.mk doc [] [] 0 []

/-- Source `SpinnerPlugin.updateDecorations`: refresh the decoration field from the
current entries. -/
def SpinnerPlugin.updateDecorations (s : SpinnerPlugin) : SpinnerPlugin :=
  { s with decorations := buildDecorations s.entries }

/-- Source `SpinnerPlugin.show`: register a `LoaderWidget` entry at `position` with a
fresh id, record the position-to-id routing key, rebuild decorations, and
return the new state with the id (the source returns the `() => hide(id)`
dispose closure; the id identifies it). -/
def SpinnerPlugin.show (s : SpinnerPlugin) (position : Nat) : SpinnerPlugin × Nat :=
  let isEOL := isPositionAtEndOfLine s.doc position
  let id := s.idCounter + 1
  let s1 := { s with idCounter := id,
                     entries := mset s.entries id (Entry.mk position isEOL Widget.loader),
                     positionToId := mset s.positionToId position id }
  (SpinnerPlugin.updateDecorations s1, id)

/-- Source `SpinnerPlugin.hide`: if the id is live, delete the routing key recorded at
the entry's (current) `position` field, delete the entry, and rebuild
decorations; otherwise do nothing. -/
def SpinnerPlugin.hide (s : SpinnerPlugin) (id : Nat) : SpinnerPlugin :=
  match mget s.entries id with
  | some entry =>
      SpinnerPlugin.updateDecorations
        { s with positionToId := mdel s.positionToId entry.position,
                 entries := mdel s.entries id }
  | none => s

/-- The per-entry step of `updateContent`: a `LoaderWidget` becomes a fresh
`ContentWidget` (not yet materialized), a `ContentWidget` gets `updateText`. -/
def updateEntry (text : JSStr) (data : Entry) : Entry :=
  match data.widget with
  | Widget.loader => { data with widget := Widget.content (ContentWidget.mk text none) }
  | Widget.content w => { data with widget := Widget.content (w.updateText text) }

/-- Source `SpinnerPlugin.updateContent`: route the new display text to the entry whose
`positionToId` key equals `originalPosition`, or to every live entry when no
position is given; rebuild decorations only when some entry was updated. -/
def SpinnerPlugin.updateContent (s : SpinnerPlugin) (text : JSStr)
    (originalPosition : Option Nat) : SpinnerPlugin :=
  match originalPosition with
  | some p =>
      match mget s.positionToId p with
      | some id =>
          match mget s.entries id with
          | some data =>
              SpinnerPlugin.updateDecorations
                { s with entries := mset s.entries id (updateEntry text data) }
          | none => s
      | none => s
  | none =>
      match s.entries with
      | [] => s
      | _ :: _ =>
          SpinnerPlugin.updateDecorations
            { s with entries := s.entries.map (fun kv => (kv.1, updateEntry text kv.2)) }

/-- Source `SpinnerPlugin.processText`: no-op when the raw text trims to empty;
otherwise apply the optional transform and route the result. -/
def SpinnerPlugin.processText (s : SpinnerPlugin) (text : JSStr)
    (processFunc : Option (JSStr → JSStr)) (position : Option Nat) : SpinnerPlugin :=
  if jsTrim text ≠ [] then
    let displayText := match processFunc with
      | some f => f text
      | none => text
    s.updateContent displayText position
  else s

/-- Source `SpinnerPlugin.update` on a document change: apply the edit to the document,
remap each entry's `position` through it (default `StickyLeft` association) and
recompute `isEndOfLine` against the new line boundaries, then rebuild
decorations. `positionToId` is not touched. -/
def SpinnerPlugin.update (s : SpinnerPlugin) (e : EditOp) : SpinnerPlugin :=
  let newDoc := applyEdit s.doc e
  let newEntries := s.entries.map (fun kv =>
    let p := mapOffset e Bias.stickyLeft kv.2.position
    (kv.1, { kv.2 with position := p, isEndOfLine := isPositionAtEndOfLine newDoc p }))
  SpinnerPlugin.updateDecorations { s with doc := newDoc, entries := newEntries }

/-- The editor view materializing every entry's widget DOM, by calling `toDOM`
on each widget when it is drawn (collaborator behavior of CodeMirror). -/
def SpinnerPlugin.drawWidgets (s : SpinnerPlugin) : SpinnerPlugin :=
  { s with entries := s.entries.map (fun kv =>
      (kv.1, { kv.2 with widget := match kv.2.widget with
                | Widget.loader => Widget.loader
                | Widget.content w => Widget.content w.toDOM })) }

-- ── Sortedness and stability of the decoration rebuild ──

theorem mem_insertEntryByPos (a b : Entry) (l : List Entry) :
    b ∈ insertEntryByPos a l ↔ b = a ∨ b ∈ l := by
  induction l with
  | nil => simp [insertEntryByPos]
  | cons x xs ih =>
    by_cases h : x.position < a.position
    · simp [insertEntryByPos, h, ih]
      tauto
    · simp [insertEntryByPos, h]

theorem pairwise_insertEntryByPos (a : Entry) (l : List Entry)
    (h : l.Pairwise (fun x y => x.position ≤ y.position)) :
    (insertEntryByPos a l).Pairwise (fun x y => x.position ≤ y.position) := by
  induction l with
  | nil => simp [insertEntryByPos]
  | cons x xs ih =>
    rcases List.pairwise_cons.mp h with ⟨hx, hxs⟩
    by_cases hlt : x.position < a.position
    · simp only [insertEntryByPos, hlt, if_true]
      refine List.pairwise_cons.mpr ⟨?_, ih hxs⟩
      intro b hb
      rcases (mem_insertEntryByPos a b xs).mp hb with hba | hbm
      · exact hba ▸ Nat.le_of_lt hlt
      · exact hx b hbm
    · simp only [insertEntryByPos, hlt, if_false]
      refine List.pairwise_cons.mpr ⟨?_, h⟩
      intro b hb
      rcases List.mem_cons.mp hb with hbx | hbm
      · exact hbx ▸ Nat.le_of_not_lt hlt
      · exact Nat.le_trans (Nat.le_of_not_lt hlt) (hx b hbm)

theorem sorted_sortEntriesByPos (l : List Entry) :
    (sortEntriesByPos l).Pairwise (fun x y => x.position ≤ y.position) := by
  induction l with
  | nil => simp [sortEntriesByPos]
  | cons x xs ih => exact pairwise_insertEntryByPos x (sortEntriesByPos xs) ih

theorem filter_insertEntryByPos (a : Entry) (l : List Entry) (p : Nat) :
    (insertEntryByPos a l).filter (fun e => e.position = p) =
      (a :: l).filter (fun e => e.position = p) := by
  induction l with
  | nil => simp [insertEntryByPos]
  | cons x xs ih =>
    by_cases hlt : x.position < a.position
    · by_cases hap : a.position = p
      · have hxp : ¬ x.position = p := by omega
        simp only [insertEntryByPos, hlt, if_true]
        rw [List.filter_cons, List.filter_cons, List.filter_cons]
        simp [hap, hxp, ih, List.filter_cons]
      · simp only [insertEntryByPos, hlt, if_true]
        rw [List.filter_cons, List.filter_cons, List.filter_cons]
        by_cases hxp : x.position = p
        · simp [hap, hxp, ih, List.filter_cons]
        · simp [hap, hxp, ih, List.filter_cons]
    · simp [insertEntryByPos, hlt]

theorem filter_sortEntriesByPos (l : List Entry) (p : Nat) :
    (sortEntriesByPos l).filter (fun e => e.position = p) =
      l.filter (fun e => e.position = p) := by
  induction l with
  | nil => simp [sortEntriesByPos]
  | cons x xs ih =>
    have h1 : sortEntriesByPos (x :: xs) = insertEntryByPos x (sortEntriesByPos xs) := rfl
    rw [h1, filter_insertEntryByPos, List.filter_cons, List.filter_cons, ih]

-- ── showInlineDiff (diff-review controller, src/src/inlineDiffView.ts) ──

/-- The payload of `showDiffEffect`: the replaced span and the proposed text. -/
structure DiffState where
  diffFrom : Nat
  diffTo : Nat
  newText : JSStr
deriving DecidableEq

/-- The resolution of a diff-review session (`'keep' | 'undo'`). -/
inductive Decision where
  | keep
  | undo
deriving DecidableEq

/-- Global state of the diff-review machinery: which sessions' capture-phase
`keydown` handlers are attached to the document (in attach order), which
session's callbacks occupy the module-level `activeDiffCallbacks` slot, which
sessions' promises are resolved (and how), the next fresh session number, and
the current diff decorations of the `inlineDiffField`. -/
structure DiffGlobal where
  listeners : List Nat
  active : Option Nat
  resolved : List (Nat × Decision)
  nextSession : Nat
  decorations : Option DiffState
deriving DecidableEq

/-- No session started, no listener, no decorations. -/
def DiffGlobal.initial : DiffGlobal :=
  DiffGlobal.mk [] none [] 1 none

/-- The `cleanup` closure of session `sid`: if `activeDiffCallbacks` is set,
remove *its* keydown handler from the document and null the slot; dispatch
`clearDiffEffect`; resolve session `sid`'s promise (a second resolve of an
already-resolved promise is a no-op). -/
def cleanup (sid : Nat) (d : Decision) (g : DiffGlobal) : DiffGlobal :=
  let g1 :=
    match g.active with
    | some j => { g with listeners := g.listeners.filter (fun x => x ≠ j), active := none }
    | none => g
  let g2 := { g1 with decorations := none }
  match mget g2.resolved sid with
  | some _ => g2
  | none => { g2 with resolved := mset g2.resolved sid d }

/-- Session `sid`'s capture-phase `keydownHandler`: Tab or Enter resolve keep,
Escape resolves undo, anything else is ignored. -/
def handleKeydown (sid : Nat) (k : String) (g : DiffGlobal) : DiffGlobal :=
  if k = "Tab" ∨ k = "Enter" then cleanup sid Decision.keep g
  else if k = "Escape" then cleanup sid Decision.undo g
  else g

/-- One step of document event dispatch: a handler in the dispatch snapshot runs
only if it is still attached when its turn comes (DOM semantics: a listener
removed during dispatch is not invoked). -/
def dispatchStep (k : String) (g : DiffGlobal) (sid : Nat) : DiffGlobal :=
  if g.listeners.contains sid then handleKeydown sid k g else g

/-- Deliver one `keydown` to the document: every attached capture-phase handler
runs in attach order (the handlers call `stopPropagation`, which does not stop
other listeners on the same target). -/
def deliverKeydown (g : DiffGlobal) (k : String) : DiffGlobal :=
  g.listeners.foldl (dispatchStep k) g

/-- An input that can reach the controller: a keyboard event, or activating the
Keep / Undo toolbar control (the buttons call `activeDiffCallbacks?.onKeep()` /
`onUndo()`, the callbacks of whichever session currently owns the slot). -/
inductive DiffEvent where
  | keydown (k : String)
  | clickKeep
  | clickUndo
deriving DecidableEq

/-- Deliver one input event. -/
def deliverEvent (g : DiffGlobal) (e : DiffEvent) : DiffGlobal :=
  match e with
  | DiffEvent.keydown k => deliverKeydown g k
  | DiffEvent.clickKeep =>
      match g.active with
      | some sid => cleanup sid Decision.keep g
      | none => g
  | DiffEvent.clickUndo =>
      match g.active with
      | some sid => cleanup sid Decision.undo g
      | none => g

/-- Deliver a sequence of input events in order. -/
def deliverEvents (g : DiffGlobal) (evs : List DiffEvent) : DiffGlobal :=
  evs.foldl deliverEvent g

/-- Source `showInlineDiff(editorView, from, to, newText)`: install the session's
callbacks in the module slot (overwriting it), attach its capture-phase keydown
handler, and dispatch `showDiffEffect`; returns the session number standing for
the returned promise. -/
def showInlineDiff (g : DiffGlobal) (ds : DiffState) : DiffGlobal × Nat :=
  let sid := g.nextSession
  ({ g with nextSession := sid + 1,
            active := some sid,
            listeners := g.listeners ++ [sid],
            decorations := some ds }, sid)

/-- The decision an input would produce on its own, if any. -/
def eventDecision : DiffEvent → Option Decision
  | DiffEvent.keydown k =>
      if k = "Tab" ∨ k = "Enter" then some Decision.keep
      else if k = "Escape" then some Decision.undo
      else none
  | DiffEvent.clickKeep => some Decision.keep
  | DiffEvent.clickUndo => some Decision.undo

-- ── requestPositionTracker (imported by the plugin; file absent from src/) ──

/-- Modelled from the spec: the `requestPositionTracker` registry of tracked
offset ranges (`src/requestPositionTracker.ts` is imported by the main plugin
module but its source is not available). `register(from, to)` issues a fresh
monotonically increasing id (§4.1). -/
structure RangeTracker where
  ranges : List (Nat × (Nat × Nat))
  counter : Nat
deriving DecidableEq

/-- Modelled from the spec: an empty registry. -/
def RangeTracker.initial : RangeTracker :=
  RangeTracker.mk [] 0

/-- Modelled from the spec: `register(fromOffset, toOffset) → id` (§4.1),
requiring `fromOffset ≤ toOffset`; returns a fresh unique id. -/
def RangeTracker.register (rt : RangeTracker) (f t : Nat) : RangeTracker × Nat :=
  let id := rt.counter + 1
  ({ ranges := mset rt.ranges id (f, t), counter := id }, id)

/-- Modelled from the spec: `mapThroughEdit(editOperations)` (§4.1) — for every
tracked range, map `fromOffset` with `StickyLeft` bias and `toOffset` with
`StickyRight` bias. -/
def RangeTracker.mapThroughEdit (rt : RangeTracker) (e : EditOp) : RangeTracker :=
  { rt with ranges := rt.ranges.map (fun kv =>
      (kv.1, (mapOffset e Bias.stickyLeft kv.2.1, mapOffset e Bias.stickyRight kv.2.2))) }

/-- Modelled from the spec: `query(id) → range | not-found` (§4.1). -/
def RangeTracker.query (rt : RangeTracker) (id : Nat) : Option (Nat × Nat) :=
  mget rt.ranges id

/-- Modelled from the spec: `insertAfterOffset` is the mapped `toOffset` under
`StickyRight` bias (§4.1). -/
def RangeTracker.insertAfterOffset (rt : RangeTracker) (id : Nat) : Option Nat :=
  (rt.query id).map (fun r => r.2)

/-- Modelled from the spec: `release(id)` (§4.1) — removes the entry; calling it
twice, or with an unknown id, is a no-op. -/
def RangeTracker.release (rt : RangeTracker) (id : Nat) : RangeTracker :=
  { rt with ranges := mdel rt.ranges id }

-- ── executeAction completion (src/unnamed/part_002, finally block) ──

/-- The single atomic document mutation the completion step may perform. -/
inductive Mutation where
  | replaceRange (text : JSStr) (f t : Nat)
  | insertAfter (text : JSStr) (insertOffset : Nat)
deriving DecidableEq

/-- Observable outcome of `executeAction`'s `finally` block: the document
mutation performed (if any), whether the completion `Notice` was shown, and
whether the tracked range was released. -/
structure FinallyOutcome where
  mutation : Option Mutation
  noticeShown : Bool
  trackerReleased : Bool
deriving DecidableEq

/-- Source `CopilotPlugin.processText(text, selectedText)`: empty for blank text,
otherwise the trimmed text with the first occurrence of the selection removed,
wrapped in newlines. `replaceFirst` is JavaScript `String.prototype.replace`
with a string pattern (first occurrence only; an empty pattern matches at the
start). -/
def replaceFirst (l pat repl : JSStr) : JSStr :=
  match l with
  | [] => if pat = [] then repl else []
  | c :: rest =>
      if pat.isPrefixOf l then repl ++ l.drop pat.length
      else c :: replaceFirst rest pat repl

/-- Source `CopilotPlugin.processText` (the private text post-processor of the main
plugin class, src/unnamed/part_002). -/
def pluginProcessText (text selectedText : JSStr) : JSStr :=
  if jsTrim text = [] then []
  else
    let cleanText := jsTrim text
    ['\n'] ++ jsTrim (replaceFirst cleanText selectedText []) ++ ['\n']

/-- The `finally` block of `executeAction` (src/unnamed/part_002): after hiding
the spinner, if the request was not aborted and the accumulated text trims to
something non-empty, perform the single document mutation (replace the tracked
range, or insert after it) and show the completion notice; in every case the
tracked range is released. -/
def executeActionFinally (aborted : Bool) (accumulatedText selection : JSStr)
    (replaceSelection : Bool) (mappedFrom mappedTo mappedInsertAfter : Nat) :
    FinallyOutcome :=
  if aborted then FinallyOutcome.mk none false true
  else
    let finalText := jsTrim accumulatedText
    if finalText ≠ [] then
      if replaceSelection ∧ selection ≠ [] then
        FinallyOutcome.mk (some (Mutation.replaceRange finalText mappedFrom mappedTo)) true true
      else
        FinallyOutcome.mk
          (some (Mutation.insertAfter (pluginProcessText finalText selection) mappedInsertAfter))
          true true
    else FinallyOutcome.mk none false true

-- ── Claim theorems ──

/-- Claim C6: registering a range over offsets [10, 20) and applying an edit
that inserts 5 characters at offset 10 yields the mapped range [10, 25):
`fromOffset` is unchanged at 10 (StickyLeft bias) while `toOffset` and
`insertAfterOffset` shift by +5 to 25 (StickyRight bias). -/
theorem rangeTracker_insertion_at_boundary :
    (RangeTracker.initial.register 10 20).1.query (RangeTracker.initial.register 10 20).2
        = some (10, 20) ∧
    ((RangeTracker.initial.register 10 20).1.mapThroughEdit
        (EditOp.mk 10 0 (str "abcde"))).query (RangeTracker.initial.register 10 20).2
        = some (10, 25) ∧
    ((RangeTracker.initial.register 10 20).1.mapThroughEdit
        (EditOp.mk 10 0 (str "abcde"))).insertAfterOffset
          (RangeTracker.initial.register 10 20).2
        = some 25 := by
  decide

/-- Claim C7: `processText` with a text that is empty or whitespace-only is a
no-op on the whole plugin state — no entry changes state or displayed text and
the decoration set is untouched — for every optional transform and routing
position, because the emptiness check runs on the raw text before the
transform. -/
theorem spinner_processText_blank_noop (s : SpinnerPlugin) (text : JSStr)
    (processFunc : Option (JSStr → JSStr)) (position : Option Nat)
    (h : jsTrim text = []) :
    s.processText text processFunc position = s := by
  simp [SpinnerPlugin.processText, h]

/-- Witness for C7: a whitespace-only text is a no-op on a live plugin state
even though the transform would produce non-whitespace output. -/
theorem spinner_processText_blank_noop_witness :
    jsTrim (str "  ") = [] ∧
    ((SpinnerPlugin.init (str "abc")).show 1).1.processText (str "  ")
        (some (fun _ => str "XYZ")) none = ((SpinnerPlugin.init (str "abc")).show 1).1 :=
  ⟨by decide,
   spinner_processText_blank_noop ((SpinnerPlugin.init (str "abc")).show 1).1 (str "  ")
     (some (fun _ => str "XYZ")) none (by decide)⟩

/-- Calling `hide` with an id that is not a live entry leaves the state unchanged. -/
theorem hide_noop_of_absent (s : SpinnerPlugin) (id : Nat)
    (h : mget s.entries id = none) : s.hide id = s := by
  simp [SpinnerPlugin.hide, h]

/-- Claim C8: `hide` (the dispose handle of `show`) removes the targeted entry
and rebuilds the decoration set from the remaining entries; a second `hide`
with the same id, or a `hide` with an id that was never registered, is a no-op
that changes nothing, and other entries are never affected. -/
theorem spinner_dispose_idempotent (s : SpinnerPlugin) (id : Nat) :
    mget (s.hide id).entries id = none ∧
    (s.hide id).hide id = s.hide id ∧
    (mget s.entries id = none → s.hide id = s) ∧
    (∀ j, j ≠ id → mget (s.hide id).entries j = mget s.entries j) ∧
    (∀ e, mget s.entries id = some e →
      (s.hide id).decorations = buildDecorations (mdel s.entries id)) := by
  cases h : mget s.entries id with
  | none =>
    have hs : s.hide id = s := hide_noop_of_absent s id h
    refine ⟨by rw [hs]; exact h, by rw [hs, hs], fun _ => hs,
      fun j _ => by rw [hs], fun e he => Option.noConfusion he⟩
  | some en =>
    have hhide : s.hide id = SpinnerPlugin.updateDecorations
        { s with positionToId := mdel s.positionToId en.position,
                 entries := mdel s.entries id } := by
      simp [SpinnerPlugin.hide, h]
    have hent : (s.hide id).entries = mdel s.entries id := by
      rw [hhide]
      rfl
    have h1 : mget (s.hide id).entries id = none := by
      rw [hent]
      exact mget_mdel_self _ _
    refine ⟨h1, hide_noop_of_absent _ _ h1, fun hnone => Option.noConfusion hnone,
      ?_, ?_⟩
    · intro j hj
      rw [hent]
      exact mget_mdel_ne _ _ _ hj
    · intro e _
      rw [hhide]
      rfl

/-- Witness for C8: on a state with two live entries, disposing one removes it,
leaves the other untouched, disposing it again is a no-op, and disposing an
unknown id is a no-op. -/
theorem spinner_dispose_idempotent_witness :
    (let s := ((SpinnerPlugin.init (str "abcdef")).show 2).1
     let s2 := (s.show 4).1
     mget (s2.hide 1).entries 1 = none ∧
     (s2.hide 1).hide 1 = s2.hide 1 ∧
     (mget s2.entries 99 = none → s2.hide 99 = s2) ∧
     (2 ≠ (1 : Nat) → mget (s2.hide 1).entries 2 = mget s2.entries 2) ∧
     (∀ e, mget s2.entries 1 = some e →
        (s2.hide 1).decorations = buildDecorations (mdel s2.entries 1))) := by
  refine ⟨(spinner_dispose_idempotent _ 1).1, (spinner_dispose_idempotent _ 1).2.1,
    fun h => (spinner_dispose_idempotent _ 99).2.2.1 h,
    fun h => (spinner_dispose_idempotent _ 1).2.2.2.1 2 h,
    fun e he => (spinner_dispose_idempotent _ 1).2.2.2.2 e he⟩

/-- Claim C10: at completion of a non-aborted request whose accumulated
streamed text trims to the empty string, the `finally` block of `executeAction`
performs no document mutation at all — neither a replace of the tracked range
nor an insert after it — and shows no completion notice, while the tracked
range is still released. -/
theorem executeAction_blank_completion (accumulatedText selection : JSStr)
    (replaceSelection : Bool) (mappedFrom mappedTo mappedInsertAfter : Nat)
    (h : jsTrim accumulatedText = []) :
    executeActionFinally false accumulatedText selection replaceSelection
        mappedFrom mappedTo mappedInsertAfter
      = FinallyOutcome.mk none false true := by
  simp [executeActionFinally, h]

/-- Witness for C10: a whitespace-only accumulated text produces no mutation
and no notice, but still releases the tracked range. -/
theorem executeAction_blank_completion_witness :
    jsTrim (str " \n ") = [] ∧
    executeActionFinally false (str " \n ") (str "sel") true 1 2 3
      = FinallyOutcome.mk none false true :=
  ⟨by decide, executeAction_blank_completion (str " \n ") (str "sel") true 1 2 3 (by decide)⟩

/-- Claim C2: on a materialized streaming widget, `updateText` with a text that
strictly extends the previously displayed text leaves the unchanged prefix as
plain (unmarked) content and marks exactly the appended suffix as a newly
inserted animated chunk; with a text that is not an extension it performs a
full replace of the displayed content (a single plain segment). -/
theorem contentWidget_incremental_render (w : ContentWidget) (newText : JSStr)
    (hdom : w.dom.isSome = true) :
    (w.text ≠ newText → w.text.isPrefixOf newText = true →
        (w.updateText newText).text = newText ∧
        (w.updateText newText).dom =
          some [RenderSeg.mk w.text false,
                RenderSeg.mk (newText.drop w.text.length) true]) ∧
    (w.text.isPrefixOf newText = false →
        (w.updateText newText).text = newText ∧
        (w.updateText newText).dom = some [RenderSeg.mk newText false]) := by
  cases hd : w.dom with
  | none => rw [hd] at hdom; cases hdom
  | some segs =>
    constructor
    · intro hne hpre
      have hp : w.text <+: newText := List.isPrefixOf_iff_prefix.mp hpre
      obtain ⟨t, ht⟩ := hp
      have htne : t ≠ [] := by
        intro h0
        apply hne
        rw [← ht, h0, List.append_nil]
      have hdrop : newText.drop w.text.length = t := by
        rw [← ht, List.drop_left]
      have htake : newText.take (newText.length - t.length) = w.text := by
        rw [← ht]
        have hl : (w.text ++ t).length - t.length = w.text.length := by
          simp [List.length_append]
        rw [hl, List.take_left]
      refine ⟨?_, ?_⟩ <;>
        simp [ContentWidget.updateText, hd, hne, hpre, hdrop, htake, htne]
    · intro hnp
      have hne : w.text ≠ newText := by
        intro he
        rw [he] at hnp
        have : newText.isPrefixOf newText = true :=
          List.isPrefixOf_iff_prefix.mpr (List.prefix_refl newText)
        rw [this] at hnp
        cases hnp
      constructor <;> simp [ContentWidget.updateText, hd, hne, hnp]

/-- Witness for C2: through the overlay engine, `processText("Hello")` then
`processText("Hello world")` on the same (rendered) entry marks only
`" world"` as a new chunk, while `processText("Hello")` then
`processText("Goodbye")` performs a full replace. -/
theorem contentWidget_incremental_render_witness :
    ((ContentWidget.mk (str "Hello") (some [RenderSeg.mk (str "Hello") false])).updateText
        (str "Hello world")).dom =
      some [RenderSeg.mk (str "Hello") false, RenderSeg.mk (str " world") true] ∧
    ((ContentWidget.mk (str "Hello") (some [RenderSeg.mk (str "Hello") false])).updateText
        (str "Goodbye")).dom =
      some [RenderSeg.mk (str "Goodbye") false] := by
  constructor
  · have h := (contentWidget_incremental_render
      (ContentWidget.mk (str "Hello") (some [RenderSeg.mk (str "Hello") false]))
      (str "Hello world") (by decide)).1 (by decide) (by decide)
    rw [h.2]
    decide
  · have h := (contentWidget_incremental_render
      (ContentWidget.mk (str "Hello") (some [RenderSeg.mk (str "Hello") false]))
      (str "Goodbye") (by decide)).2 (by decide)
    exact h.2

theorem map_fst_map_entry {ν : Type} (f : ν → ν) (m : List (Nat × ν)) :
    (m.map (fun kv => (kv.1, f kv.2))).map Prod.fst = m.map Prod.fst := by
  induction m with
  | nil => rfl
  | cons a l ih => simp [ih]

theorem filter_map_decoOf (l : List Entry) (p : Nat) :
    (l.map decoOf).filter (fun d => d.position = p)
      = (l.filter (fun e => e.position = p)).map decoOf := by
  induction l with
  | nil => rfl
  | cons x xs ih =>
    by_cases hx : x.position = p
    · simp [decoOf, hx, ih, List.filter_cons]
    · simp [decoOf, hx, ih, List.filter_cons]

/-- Claim C5: the decoration rebuild renders entries in ascending order of
their current anchor position; entries at equal positions keep their relative
order in the (insertion-ordered) entries map, i.e. registration order, and
content updates never reorder the entries map; the rebuilt decoration set is a
function of the live entries alone. -/
theorem overlay_render_order (s t : SpinnerPlugin) (p : Nat) (text : JSStr)
    (position : Option Nat) :
    ((s.updateDecorations).decorations.Pairwise (fun a b => a.position ≤ b.position)) ∧
    ((s.updateDecorations).decorations.filter (fun d => d.position = p) =
      ((s.entries.map Prod.snd).map decoOf).filter (fun d => d.position = p)) ∧
    (s.entries = t.entries →
      (s.updateDecorations).decorations = (t.updateDecorations).decorations) ∧
    ((s.updateContent text position).entries.map Prod.fst = s.entries.map Prod.fst) := by
  have hdec : (SpinnerPlugin.updateDecorations s).decorations =
      (sortEntriesByPos (s.entries.map Prod.snd)).map decoOf := rfl
  refine ⟨?_, ?_, ?_, ?_⟩
  · rw [hdec, List.pairwise_map]
    exact sorted_sortEntriesByPos _
  · rw [hdec, filter_map_decoOf, filter_map_decoOf, filter_sortEntriesByPos]
  · intro h
    simp [SpinnerPlugin.updateDecorations, buildDecorations, h]
  · cases position with
    | none =>
      cases hm : s.entries with
      | nil => simp [SpinnerPlugin.updateContent, hm]
      | cons a l =>
        have hmain : (s.updateContent text none).entries
            = s.entries.map (fun kv => (kv.1, updateEntry text kv.2)) := by
          simp [SpinnerPlugin.updateContent, hm, SpinnerPlugin.updateDecorations]
        rw [hmain, map_fst_map_entry, hm]
    | some q =>
      cases hq : mget s.positionToId q with
      | none => simp [SpinnerPlugin.updateContent, hq]
      | some id =>
        cases he : mget s.entries id with
        | none => simp [SpinnerPlugin.updateContent, hq, he]
        | some data =>
          have hmain : (s.updateContent text (some q)).entries
              = mset s.entries id (updateEntry text data) := by
            simp [SpinnerPlugin.updateContent, hq, he, SpinnerPlugin.updateDecorations]
          rw [hmain]
          exact keys_mset_of_mem _ _ _ (by rw [he]; exact fun hc => Option.noConfusion hc)

/-- Witness for C5 on a live state with three entries, two of them at the same
anchor offset. -/
theorem overlay_render_order_witness :
    (let sW := (((((SpinnerPlugin.init (str "abc\ndef")).show 2).1.show 0).1.show 2).1)
     ((sW.updateDecorations).decorations.Pairwise (fun a b => a.position ≤ b.position)) ∧
     ((sW.updateDecorations).decorations.filter (fun d => d.position = 2) =
       ((sW.entries.map Prod.snd).map decoOf).filter (fun d => d.position = 2)) ∧
     ((sW.updateDecorations).decorations = (sW.updateDecorations).decorations) ∧
     ((sW.updateContent (str "hi") (some 2)).entries.map Prod.fst
        = sW.entries.map Prod.fst)) := by
  have h := overlay_render_order
    (((((SpinnerPlugin.init (str "abc\ndef")).show 2).1.show 0).1.show 2).1)
    (((((SpinnerPlugin.init (str "abc\ndef")).show 2).1.show 0).1.show 2).1)
    2 (str "hi") (some 2)
  exact ⟨h.1, h.2.1, h.2.2.1 rfl, h.2.2.2⟩

/-- Counterexample to claim C3: two overlay entries registered at the same
anchor offset 5. Before the abort, a routed update at offset 5 reaches the
second entry; hiding the first entry (its abort-listener teardown) deletes the
shared `positionToId` key, after which the same routed update for the still
live second entry is silently dropped — the abort of one generation does affect
the in-flight update routing of the other. -/
theorem spinner_abort_same_offset_counterexample :
    ((((SpinnerPlugin.init (str "0123456789")).show 5).1.show 5).1.processText
        (str "x") none (some 5)
      ≠ (((SpinnerPlugin.init (str "0123456789")).show 5).1.show 5).1) ∧
    (mget (((((SpinnerPlugin.init (str "0123456789")).show 5).1.show 5).1.hide 1).entries)
        2).isSome = true ∧
    mget (((((SpinnerPlugin.init (str "0123456789")).show 5).1.show 5).1.hide 1).positionToId)
        5 = none ∧
    ((((SpinnerPlugin.init (str "0123456789")).show 5).1.show 5).1.hide 1).processText
        (str "x") none (some 5)
      = (((SpinnerPlugin.init (str "0123456789")).show 5).1.show 5).1.hide 1 := by
  decide

/-- Claim C3 (amended): aborting one of two in-flight generations — each owning
its own tracked-range id, overlay-entry id and cancellation signal — tears down
only its own overlay entry and tracked range and leaves the other generation's
entry, tracked range and update routing intact, *provided the two overlay
entries were registered at distinct anchor offsets*; when both were registered
at the same offset, tearing down one deletes the shared position-to-id routing
key and subsequent routed updates for the surviving entry are dropped. -/
theorem spinner_abort_isolated (s : SpinnerPlugin) (rt : RangeTracker)
    (id1 id2 p2 r1 r2 : Nat) (e1 e2 : Entry) (text : JSStr)
    (hid : id1 ≠ id2) (hrid : r2 ≠ r1)
    (h1 : mget s.entries id1 = some e1)
    (h2 : mget s.entries id2 = some e2)
    (hroute : mget s.positionToId p2 = some id2)
    (hdist : e1.position ≠ p2) :
    mget (s.hide id1).entries id1 = none ∧
    mget (s.hide id1).entries id2 = some e2 ∧
    mget (s.hide id1).positionToId p2 = some id2 ∧
    mget ((s.hide id1).updateContent text (some p2)).entries id2
        = some (updateEntry text e2) ∧
    (rt.release r1).query r2 = rt.query r2 := by
  have hhide : s.hide id1 = SpinnerPlugin.updateDecorations
      { s with positionToId := mdel s.positionToId e1.position,
               entries := mdel s.entries id1 } := by
    simp [SpinnerPlugin.hide, h1]
  have hent : (s.hide id1).entries = mdel s.entries id1 := by
    rw [hhide]
    rfl
  have hpos : (s.hide id1).positionToId = mdel s.positionToId e1.position := by
    rw [hhide]
    rfl
  have c1 : mget (s.hide id1).entries id1 = none := by
    rw [hent]
    exact mget_mdel_self _ _
  have c2 : mget (s.hide id1).entries id2 = some e2 := by
    rw [hent, mget_mdel_ne _ _ _ (Ne.symm hid)]
    exact h2
  have c3 : mget (s.hide id1).positionToId p2 = some id2 := by
    rw [hpos, mget_mdel_ne _ _ _ (Ne.symm hdist)]
    exact hroute
  refine ⟨c1, c2, c3, ?_, ?_⟩
  · have hupd : (s.hide id1).updateContent text (some p2)
        = SpinnerPlugin.updateDecorations
            { s.hide id1 with
              entries := mset (s.hide id1).entries id2 (updateEntry text e2) } := by
      simp [SpinnerPlugin.updateContent, c3, c2]
    rw [hupd]
    exact mget_mset_self _ _ _
  · simp [RangeTracker.release, RangeTracker.query, mget_mdel_ne _ _ _ hrid]

/-- Witness for the amended C3: a state with two entries at distinct offsets and
two tracked ranges; hiding the first leaves the second entry, its routing, and
the other tracked range intact. -/
theorem spinner_abort_isolated_witness :
    (let s := SpinnerPlugin.mk (str "0123456789")
        [(1, Entry.mk 2 false Widget.loader), (2, Entry.mk 5 false Widget.loader)]
        [(2, 1), (5, 2)] 2 []
     let rt := RangeTracker.mk [(1, (0, 3)), (2, (4, 7))] 2
     mget (s.hide 1).entries 1 = none ∧
     mget (s.hide 1).entries 2 = some (Entry.mk 5 false Widget.loader) ∧
     mget (s.hide 1).positionToId 5 = some 2 ∧
     mget ((s.hide 1).updateContent (str "hi") (some 5)).entries 2
        = some (updateEntry (str "hi") (Entry.mk 5 false Widget.loader)) ∧
     (rt.release 1).query 2 = rt.query 2) := by
  have h := spinner_abort_isolated
    (SpinnerPlugin.mk (str "0123456789")
      [(1, Entry.mk 2 false Widget.loader), (2, Entry.mk 5 false Widget.loader)]
      [(2, 1), (5, 2)] 2 [])
    (RangeTracker.mk [(1, (0, 3)), (2, (4, 7))] 2)
    1 2 5 1 2 (Entry.mk 2 false Widget.loader) (Entry.mk 5 false Widget.loader)
    (str "hi") (by decide) (by decide) (by decide) (by decide) (by decide) (by decide)
  exact h

/-- Counterexample to claim C9: entry 1 was registered at offset 5 and entry 2
at offset 8; an edit inserting three characters at offset 0 moves entry 1's
anchor to 8. `processText` routed at entry 1's current mapped anchor offset (8)
is *not* a no-op: it reaches entry 2, whose registration key is 8. -/
theorem spinner_routing_counterexample :
    ((mget (((((SpinnerPlugin.init (str "0123456789")).show 5).1.show 8).1.update
          (EditOp.mk 0 0 (str "abc"))).entries) 1).map Entry.position = some 8) ∧
    (mget (((((SpinnerPlugin.init (str "0123456789")).show 5).1.show 8).1.update
          (EditOp.mk 0 0 (str "abc"))).positionToId) 5 = some 1) ∧
    ((((SpinnerPlugin.init (str "0123456789")).show 5).1.show 8).1.update
          (EditOp.mk 0 0 (str "abc"))).processText (str "x") none (some 8)
      ≠ (((SpinnerPlugin.init (str "0123456789")).show 5).1.show 8).1.update
          (EditOp.mk 0 0 (str "abc")) := by
  decide

/-- Claim C9 (amended): the `positionToId` routing map is keyed by the offsets
passed to `show` and is never remapped through document edits, even though each
entry's rendered position is; `processText` with an offset that is a live
routing key reaches the entry that key maps to, and `processText` with an
offset that is not a routing key is a no-op. (When an entry's current mapped
anchor happens to equal another entry's registration offset, a routed update at
that offset therefore reaches the other entry instead of being a no-op.) -/
theorem spinner_routing_original_offsets (s : SpinnerPlugin) (e : EditOp)
    (p q id : Nat) (ent : Entry) (text : JSStr) (f : Option (JSStr → JSStr))
    (hroute : mget s.positionToId p = some id)
    (hent : mget s.entries id = some ent)
    (hmiss : mget s.positionToId q = none) :
    ((s.update e).positionToId = s.positionToId) ∧
    (mget (s.updateContent text (some p)).entries id = some (updateEntry text ent)) ∧
    (s.processText text f (some q) = s) := by
  refine ⟨rfl, ?_, ?_⟩
  · have hupd : s.updateContent text (some p)
        = SpinnerPlugin.updateDecorations
            { s with entries := mset s.entries id (updateEntry text ent) } := by
      simp [SpinnerPlugin.updateContent, hroute, hent]
    rw [hupd]
    exact mget_mset_self _ _ _
  · by_cases ht : jsTrim text = []
    · simp [SpinnerPlugin.processText, ht]
    · cases f with
      | none => simp [SpinnerPlugin.processText, ht, SpinnerPlugin.updateContent, hmiss]
      | some g => simp [SpinnerPlugin.processText, ht, SpinnerPlugin.updateContent, hmiss]

/-- Witness for the amended C9: after an edit moves entry 1 from offset 5 to 8,
the routing map is unchanged, a routed update at the original offset 5 still
reaches entry 1, and a routed update at an offset that is no entry's
registration key (11) is a no-op. -/
theorem spinner_routing_original_offsets_witness :
    (let s3 := (((SpinnerPlugin.init (str "0123456789")).show 5).1.show 8).1.update
        (EditOp.mk 0 0 (str "abc"))
     ((s3.update (EditOp.mk 1 0 (str "z"))).positionToId = s3.positionToId) ∧
     ((mget (s3.updateContent (str "hi") (some 5)).entries 1).map Entry.widget
        = some (Widget.content (ContentWidget.mk (str "hi") none))) ∧
     (s3.processText (str "hi") none (some 11) = s3)) := by
  have h := spinner_routing_original_offsets
    ((((SpinnerPlugin.init (str "0123456789")).show 5).1.show 8).1.update
      (EditOp.mk 0 0 (str "abc")))
    (EditOp.mk 1 0 (str "z")) 5 11 1
    (Entry.mk 8 false Widget.loader) (str "hi") none
    (by decide) (by decide) (by decide)
  refine ⟨h.1, ?_, h.2.2⟩
  rw [h.2.1]
  decide

-- ── Diff-review session lemmas ──

/-- The state right after `showInlineDiff` is invoked on a fresh module: session
1 pending, its handler attached, its callbacks active, decorations shown. -/
def pendingSession (ds : DiffState) : DiffGlobal :=
  DiffGlobal.mk [1] (some 1) [] 2 (some ds)

/-- The state after session 1 resolved with decision `d`: no handler, no active
callbacks, no decorations. -/
def resolvedSession (d : Decision) : DiffGlobal :=
  DiffGlobal.mk [] none [(1, d)] 2 none

theorem showInlineDiff_initial (ds : DiffState) :
    showInlineDiff DiffGlobal.initial ds = (pendingSession ds, 1) := rfl

theorem deliverEvent_pending (ds : DiffState) (e : DiffEvent) :
    deliverEvent (pendingSession ds) e =
      match eventDecision e with
      | none => pendingSession ds
      | some d => resolvedSession d := by
  cases e with
  | keydown k =>
    by_cases h1 : k = "Tab" ∨ k = "Enter"
    · simp [deliverEvent, deliverKeydown, pendingSession, dispatchStep, handleKeydown,
        h1, eventDecision, cleanup, mget, mset, resolvedSession]
    · by_cases h2 : k = "Escape"
      · simp [deliverEvent, deliverKeydown, pendingSession, dispatchStep, handleKeydown,
          h1, h2, eventDecision, cleanup, mget, mset, resolvedSession]
      · simp [deliverEvent, deliverKeydown, pendingSession, dispatchStep, handleKeydown,
          h1, h2, eventDecision]
  | clickKeep =>
    simp [deliverEvent, pendingSession, eventDecision, cleanup, mget, mset, resolvedSession]
  | clickUndo =>
    simp [deliverEvent, pendingSession, eventDecision, cleanup, mget, mset, resolvedSession]

theorem deliverEvent_resolved (d : Decision) (e : DiffEvent) :
    deliverEvent (resolvedSession d) e = resolvedSession d := by
  cases e <;>
    simp [deliverEvent, deliverKeydown, resolvedSession, deliverEvents]

theorem deliverEvents_resolved (d : Decision) (evs : List DiffEvent) :
    deliverEvents (resolvedSession d) evs = resolvedSession d := by
  induction evs with
  | nil => rfl
  | cons e rest ih =>
    have hstep : deliverEvents (resolvedSession d) (e :: rest)
        = deliverEvents (deliverEvent (resolvedSession d) e) rest := rfl
    rw [hstep, deliverEvent_resolved]
    exact ih

theorem deliverEvents_pending (ds : DiffState) (evs : List DiffEvent) :
    deliverEvents (pendingSession ds) evs =
      match (evs.filterMap eventDecision).head? with
      | none => pendingSession ds
      | some d => resolvedSession d := by
  induction evs with
  | nil => rfl
  | cons e rest ih =>
    have hstep : deliverEvents (pendingSession ds) (e :: rest)
        = deliverEvents (deliverEvent (pendingSession ds) e) rest := rfl
    cases hd : eventDecision e with
    | none =>
      rw [hstep, deliverEvent_pending, hd]
      rw [List.filterMap_cons, hd]
      exact ih
    | some d =>
      rw [hstep, deliverEvent_pending, hd]
      rw [List.filterMap_cons, hd]
      exact deliverEvents_resolved d rest

/-- Claim C1: after `showInlineDiff` starts a diff-review session, delivering
an Escape keydown resolves its promise to undo and a Tab or Enter keydown
resolves it to keep; for an arbitrary sequence of near-simultaneous inputs
(keys and/or toolbar-control activations) the promise resolves exactly once, to
whichever decision input was delivered first, and the resolution tears down the
session's keydown listener, module callbacks and decorations (`resolvedSession`
has no listener, no active callbacks and no decorations); later inputs change
nothing. -/
theorem diffReview_first_input_wins (ds : DiffState) (evs : List DiffEvent) :
    (deliverEvents (showInlineDiff DiffGlobal.initial ds).1 evs =
      match (evs.filterMap eventDecision).head? with
      | none => pendingSession ds
      | some d => resolvedSession d) ∧
    ((deliverEvents (showInlineDiff DiffGlobal.initial ds).1
        [DiffEvent.keydown "Escape"]).resolved = [(1, Decision.undo)]) ∧
    ((deliverEvents (showInlineDiff DiffGlobal.initial ds).1
        [DiffEvent.keydown "Tab"]).resolved = [(1, Decision.keep)]) ∧
    ((deliverEvents (showInlineDiff DiffGlobal.initial ds).1
        [DiffEvent.keydown "Enter"]).resolved = [(1, Decision.keep)]) ∧
    (∀ d, resolvedSession d = DiffGlobal.mk [] none [(1, d)] 2 none) := by
  refine ⟨?_, ?_, ?_, ?_, fun d => rfl⟩
  · rw [showInlineDiff_initial]
    exact deliverEvents_pending ds evs
  · exact congrArg DiffGlobal.resolved (deliverEvents_pending ds [DiffEvent.keydown "Escape"])
  · exact congrArg DiffGlobal.resolved (deliverEvents_pending ds [DiffEvent.keydown "Tab"])
  · exact congrArg DiffGlobal.resolved (deliverEvents_pending ds [DiffEvent.keydown "Enter"])

/-- Counterexample to claim C4: starting a second diff-review session while the
first is still pending neither rejects the second session (it is created, its
listener attached, its decorations shown) nor force-resolves the first (still
pending). The superseded first session's listener remains attached and able to
act: the next Tab resolves the *first* session, removes the *second* session's
listener (via the module-level callback slot) and clears the second session's
decorations, leaving the second session pending forever. -/
theorem diffReview_double_start_counterexample :
    ((showInlineDiff (showInlineDiff DiffGlobal.initial
        (DiffState.mk 0 1 (str "A"))).1 (DiffState.mk 2 3 (str "B"))).1.listeners
      = [1, 2]) ∧
    (mget (showInlineDiff (showInlineDiff DiffGlobal.initial
        (DiffState.mk 0 1 (str "A"))).1 (DiffState.mk 2 3 (str "B"))).1.resolved 1
      = none) ∧
    ((deliverEvent (showInlineDiff (showInlineDiff DiffGlobal.initial
        (DiffState.mk 0 1 (str "A"))).1 (DiffState.mk 2 3 (str "B"))).1
        (DiffEvent.keydown "Tab")).resolved = [(1, Decision.keep)]) ∧
    (mget (deliverEvent (showInlineDiff (showInlineDiff DiffGlobal.initial
        (DiffState.mk 0 1 (str "A"))).1 (DiffState.mk 2 3 (str "B"))).1
        (DiffEvent.keydown "Tab")).resolved 2 = none) ∧
    ((deliverEvent (showInlineDiff (showInlineDiff DiffGlobal.initial
        (DiffState.mk 0 1 (str "A"))).1 (DiffState.mk 2 3 (str "B"))).1
        (DiffEvent.keydown "Tab")).listeners = [1]) ∧
    ((deliverEvent (showInlineDiff (showInlineDiff DiffGlobal.initial
        (DiffState.mk 0 1 (str "A"))).1 (DiffState.mk 2 3 (str "B"))).1
        (DiffEvent.keydown "Tab")).decorations = none) := by
  decide

/-- Claim C4 (amended): the code does not enforce a single active session.
Starting a second session while the first is pending neither rejects it nor
force-resolves the first: both keydown listeners stay attached and the first
session stays pending; the superseded session's listener fires first on the
next decision key, resolving the superseded session, detaching the new
session's listener and clearing its decorations, so the new session remains
pending with no listener of its own. -/
theorem diffReview_double_start (dA dB : DiffState) :
    ((showInlineDiff (showInlineDiff DiffGlobal.initial dA).1 dB).1.listeners = [1, 2]) ∧
    (mget (showInlineDiff (showInlineDiff DiffGlobal.initial dA).1 dB).1.resolved 1
      = none) ∧
    ((showInlineDiff (showInlineDiff DiffGlobal.initial dA).1 dB).1.decorations
      = some dB) ∧
    (deliverEvent (showInlineDiff (showInlineDiff DiffGlobal.initial dA).1 dB).1
        (DiffEvent.keydown "Tab")
      = DiffGlobal.mk [1] none [(1, Decision.keep)] 3 none) := by
  refine ⟨rfl, rfl, rfl, ?_⟩
  rfl
